import Mathlib

/-!
Shallow embedding of the arcade racing core of the repository
(TrackGenerator.ts, TrackSystem.tsx, RaceVisuals.tsx, CameraSystem)
together with proofs of the testable properties of its specification.

JavaScript numbers are modelled as exact rationals; the transcendental
functions of the JS Math library (cos, sin, sqrt, asin, atan2, PI) are
abstracted as an explicit structure of functions on the rationals, so
every definition stays computable and the generator is a pure function
of the seed and that math library.
-/

namespace Zhaotito

/-- Three.js Vector3, components modelled as rationals. -/
structure Vec3 where
  x : ℚ
  y : ℚ
  z : ℚ
deriving Repr, DecidableEq

/-- Vector3.add. -/
def Vec3.add (a b : Vec3) : Vec3 := ⟨a.x + b.x, a.y + b.y, a.z + b.z⟩

/-- Vector3.sub. -/
def Vec3.sub (a b : Vec3) : Vec3 := ⟨a.x - b.x, a.y - b.y, a.z - b.z⟩

/-- Vector3.multiplyScalar. -/
def Vec3.multiplyScalar (a : Vec3) (k : ℚ) : Vec3 := ⟨a.x * k, a.y * k, a.z * k⟩

/-- Vector3.dot. -/
def Vec3.dot (a b : Vec3) : ℚ := a.x * b.x + a.y * b.y + a.z * b.z

/-- Vector3.crossVectors. -/
def Vec3.crossVectors (a b : Vec3) : Vec3 :=
  ⟨a.y * b.z - a.z * b.y, a.z * b.x - a.x * b.z, a.x * b.y - a.y * b.x⟩

/-- Vector3.lengthSq. -/
def Vec3.lengthSq (a : Vec3) : ℚ := a.x * a.x + a.y * a.y + a.z * a.z

/-- Vector3.negate. -/
def Vec3.negate (a : Vec3) : Vec3 := ⟨-a.x, -a.y, -a.z⟩

/-- JS Math.sign restricted to the rationals: -1, 0 or 1. -/
def jsSign (q : ℚ) : ℚ := if q > 0 then 1 else if q < 0 then -1 else 0

/-- Contact side reported by the collision resolver, from TrackSystem.tsx. -/
inductive Side where
  | left
  | right
  | none
deriving Repr, DecidableEq

/-- CollisionResult, from TrackSystem.tsx. -/
structure CollisionResult where
  didCollide : Bool
  correctedPosition : Vec3
  correctedVelocity : Vec3
  side : Side
deriving Repr, DecidableEq

/-- Ground decoration marker of a segment (groundEmoji in SegmentData).
The char field is the pool entry selected by the seeded stream; it is
none when the drawn index falls outside the pool, where JS yields
undefined. -/
structure GroundEmoji where
  char : Option String
  offset : ℚ
  size : ℚ
  rotation : ℚ
deriving Repr, DecidableEq

/-- Three.js Euler angles (order XYZ), components as rationals. -/
structure EulerAngles where
  x : ℚ
  y : ℚ
  z : ℚ
deriving Repr, DecidableEq

/-- SegmentData, from TrackGenerator.ts. -/
structure SegmentData where
  index : ℕ
  position : Vec3
  rotation : EulerAngles
  width : ℚ
  groundEmoji : Option GroundEmoji
  normal : Vec3
  tangent : Vec3
  theme : String
deriving Repr, DecidableEq

/-- resolveTrackCollision, from TrackSystem.tsx lines 115-204.
Pure function mapping position, velocity, nearest segment and car width
to a collision outcome (elastic bounce and friction split). -/
def resolveTrackCollision (position velocity : Vec3) (segment : SegmentData)
    (carWidth : ℚ) : CollisionResult :=
  let vecToCar := position.sub segment.position
  let distFromCenter := vecToCar.dot segment.normal
  let trackHalfWidth := segment.width / 2
  let limit := trackHalfWidth - carWidth / 2
  if |distFromCenter| ≤ limit then
    { didCollide := false
      correctedPosition := position
      correctedVelocity := velocity
      side := Side.none }
  else
    let sign := jsSign distFromCenter
    let safetyBuffer : ℚ := 5 / 100
    let overlap := |distFromCenter| - limit
    let correctionMagnitude := (overlap + safetyBuffer) * sign
    let correction := segment.normal.multiplyScalar correctionMagnitude
    let newPos := position.sub correction
    let wallNormal := segment.normal.multiplyScalar (-sign)
    let vDotN := velocity.dot wallNormal
    let newVel :=
      if vDotN < 0 then
        let vNormal := wallNormal.multiplyScalar vDotN
        let vTangent := velocity.sub vNormal
        let restitution : ℚ := 1 / 10
        let maxBounceSpeed : ℚ := 1 / 2
        let bounceSpeed := min (-vDotN * restitution) maxBounceSpeed
        let responseNormal := wallNormal.multiplyScalar bounceSpeed
        let wallFriction : ℚ := 90 / 100
        let responseTangent := vTangent.multiplyScalar wallFriction
        let recombined := responseNormal.add responseTangent
        if recombined.dot velocity < 0 then responseTangent else recombined
      else velocity
    { didCollide := true
      correctedPosition := newPos
      correctedVelocity := newVel
      side := if sign > 0 then Side.right else Side.left }

/-- Signed lateral offset of a point from a segment centerline, the
projection onto the segment normal used throughout the resolver. -/
def lateralOffset (p : Vec3) (segment : SegmentData) : ℚ :=
  (p.sub segment.position).dot segment.normal

/-! ## Track generator (TrackGenerator.ts) -/

/-- The transcendental part of the JS Math library, abstracted as
rational-valued functions so the embedding stays computable: every JS
float is a rational, and the generator is parametric in this library. -/
structure JsMath where
  cos : ℚ → ℚ
  sin : ℚ → ℚ
  sqrt : ℚ → ℚ
  asin : ℚ → ℚ
  atan2 : ℚ → ℚ → ℚ
  pi : ℚ

/-- One step of the Lehmer generator of SEED_RANDOM: s * 16807 % 2147483647,
with the sign behaviour of the JS remainder (truncated division). -/
def lcgNext (s : ℤ) : ℤ := Int.tmod (s * 16807) 2147483647

/-- Value returned for LCG state s by the closure of SEED_RANDOM:
(s - 1) / 2147483646. -/
def rngVal (s : ℤ) : ℚ := ((s : ℚ) - 1) / 2147483646

/-- Initial LCG state: seed % 2147483647 with JS truncated remainder. -/
def seedFold (seed : ℤ) : ℤ := Int.tmod seed 2147483647

/-- TOTAL_SEGMENTS of generateTrackPath. -/
def TOTAL_SEGMENTS : ℕ := 1200

/-- Centerline point i of the generated loop: an ellipse with radii
1200 and 800 perturbed by sinusoidal radial noise. -/
def trackPoint (m : JsMath) (i : ℕ) : Vec3 :=
  let t := ((i : ℚ) / (TOTAL_SEGMENTS : ℚ)) * m.pi * 2
  let noise := m.sin (t * 10) * 10
  ⟨m.cos t * (1200 + noise), 0, m.sin t * (800 + noise)⟩

/-- Vector3.normalize: divide by the length, or by 1 when the length is
zero (the JS expression length() || 1). -/
def Vec3.normalizeWith (m : JsMath) (v : Vec3) : Vec3 :=
  let l := m.sqrt v.lengthSq
  let d := if l = 0 then 1 else l
  ⟨v.x / d, v.y / d, v.z / d⟩

/-- JS-style clamp of a value to an interval. -/
def clampQ (v lo hi : ℚ) : ℚ := max lo (min hi v)

/-- Euler.setFromRotationMatrix for order XYZ, applied to the rotation
matrix built by makeBasis(normal, up, tangent.negate()): the basis
vectors are the matrix columns. -/
def eulerFromBasis (m : JsMath) (xAxis yAxis zAxis : Vec3) : EulerAngles :=
  let m11 := xAxis.x
  let m12 := yAxis.x
  let m13 := zAxis.x
  let m22 := yAxis.y
  let m23 := zAxis.y
  let m32 := yAxis.z
  let m33 := zAxis.z
  let ey := m.asin (clampQ m13 (-1) 1)
  if |m13| < 9999999 / 10000000 then
    ⟨m.atan2 (-m23) m33, ey, m.atan2 (-m12) m11⟩
  else
    ⟨m.atan2 m32 m22, ey, 0⟩

/-- EMOJI_POOL from constants.ts. -/
def EMOJI_POOL : List String :=
  ["⚡", "🔥", "💎", "☠️", "👾", "🤖", "👁️", "🧠", "💣", "💥", "🌀", "🌌", "🪐", "🌑", "🩸", "🧬"]

/-- Decoration step for segment i: on every 100th segment the seeded
stream is consulted; past the 0.4 gate it draws pool index, lateral
offset, size and rotation, in source order. Returns the optional marker
and the LCG state after the draws. -/
def decorationAt (m : JsMath) (i : ℕ) (s : ℤ) : Option GroundEmoji × ℤ :=
  if i % 100 = 0 then
    let s1 := lcgNext s
    if rngVal s1 > 4 / 10 then
      let s2 := lcgNext s1
      let idx := ⌊rngVal s2 * (EMOJI_POOL.length : ℚ)⌋
      let char := if 0 ≤ idx then EMOJI_POOL[idx.toNat]? else Option.none
      let s3 := lcgNext s2
      let width : ℚ := 50
      let offset := (rngVal s3 - 5 / 10) * (width - 10)
      let s4 := lcgNext s3
      let size := 20 + rngVal s4 * 10
      let s5 := lcgNext s4
      let rot := rngVal s5 * m.pi * 2
      (Option.some ⟨char, offset, size, rot⟩, s5)
    else (Option.none, s1)
  else (Option.none, s)

/-- Segment i of the generated track: centerline point, central-difference
tangent (with wrap-around), normal from up x tangent, rotation frame,
uniform width 60, seeded decoration and the single mist theme. Returns
the segment and the LCG state after its decoration draws. -/
def segmentAt (m : JsMath) (i : ℕ) (s : ℤ) : SegmentData × ℤ :=
  let pos := trackPoint m i
  let prevIdx := (((i : ℤ) - 1 + (TOTAL_SEGMENTS : ℤ)) % (TOTAL_SEGMENTS : ℤ)).toNat
  let nextIdx := (i + 1) % TOTAL_SEGMENTS
  let tangent := Vec3.normalizeWith m ((trackPoint m nextIdx).sub (trackPoint m prevIdx))
  let up : Vec3 := ⟨0, 1, 0⟩
  let normal := Vec3.normalizeWith m (Vec3.crossVectors up tangent)
  let rotation := eulerFromBasis m normal up tangent.negate
  let de := decorationAt m i s
  ({ index := i
     position := pos
     rotation := rotation
     width := 60
     groundEmoji := de.1
     normal := normal
     tangent := tangent
     theme := "mist" }, de.2)

/-- Builds the segments from index i on, threading the LCG state, with
fuel counting the segments still to produce. -/
def genFrom (m : JsMath) (i : ℕ) (s : ℤ) : ℕ → List SegmentData
  | 0 => []
  | fuel + 1 =>
    let seg := segmentAt m i s
    seg.1 :: genFrom m (i + 1) seg.2 fuel

/-- generateTrackPath, from TrackGenerator.ts lines 26-92: the ordered
closed sequence of 1200 segments generated from an integer seed, all
randomness drawn from the single Lehmer stream seeded by the seed. -/
def generateTrackPath (m : JsMath) (seed : ℤ) : List SegmentData :=
  genFrom m 0 (seedFold seed) TOTAL_SEGMENTS

/-! ## Vehicle dynamics (Car component of RaceVisuals.tsx) -/

/-- The scalar state machine of one car, the refs of the Car component. -/
structure CarState where
  speed : ℚ
  nitroAmount : ℚ
  nitroBuffer : ℚ
  isNitroEmpty : Bool
  isNitroEnabled : Bool
  damage : ℚ
  trauma : ℚ
  isWrecked : Bool
  wreckTimer : ℚ
  lap : ℤ
  lastProgressIndex : ℕ
deriving Repr, DecidableEq

/-- Initial car state: speed 0, nitro reserve 150 with empty buffer,
no damage, lap 1, progress at the grid offset. -/
def carInit (startOffset : ℕ) : CarState :=
  { speed := 0
    nitroAmount := 150
    nitroBuffer := 0
    isNitroEmpty := false
    isNitroEnabled := false
    damage := 0
    trauma := 0
    isWrecked := false
    wreckTimer := 0
    lap := 1
    lastProgressIndex := startOffset }

/-- Per-frame input of the car step. Geometry-derived quantities of the
frame (the nearest segment index found by the windowed search, whether
resolveTrackCollision reported a hit, and the length of the corrected
velocity) enter as inputs; bufferAdd is the amount added to the pending
nitro buffer by the external pickup handler since the last frame. -/
structure FrameInput where
  delta : ℚ
  paused : Bool
  canMove : Bool
  keyW : Bool
  keyS : Bool
  keyShift : Bool
  bestIdx : ℕ
  didCollide : Bool
  collidedSpeed : ℚ
  bufferAdd : ℚ
deriving Repr, DecidableEq

/-- damp, from RaceVisuals.tsx lines 352-355: move value toward target
by the fraction min(1, step) of the gap. -/
def damp (value target step : ℚ) : ℚ :=
  value + (target - value) * min 1 step

/-- Lap counting, from RaceVisuals.tsx lines 524-532: crossing from
above 90 percent of the segment count to below 10 percent increments
the lap; the symmetric crossing decrements it. -/
def lapUpdate (trackLen lastIdx bestIdx : ℕ) (lap : ℤ) : ℤ :=
  if (lastIdx : ℚ) > (trackLen : ℚ) * (9 / 10) ∧ (bestIdx : ℚ) < (trackLen : ℚ) * (1 / 10) then
    lap + 1
  else if (lastIdx : ℚ) < (trackLen : ℚ) * (1 / 10) ∧ (bestIdx : ℚ) > (trackLen : ℚ) * (9 / 10) then
    lap - 1
  else lap

/-- Iterates lapUpdate over a sequence of per-frame nearest indices,
threading lastProgressIndex exactly as the frame loop does. -/
def lapScan (trackLen : ℕ) (lastIdx : ℕ) (lap : ℤ) : List ℕ → ℤ
  | [] => lap
  | b :: rest => lapScan trackLen b (lapUpdate trackLen lastIdx b lap) rest

/-- Result of the player nitro economy of one frame. -/
structure NitroOut where
  targetS : ℚ
  nitroAmount : ℚ
  nitroBuffer : ℚ
  isNitroEmpty : Bool
  isNitroEnabled : Bool
deriving Repr, DecidableEq

/-- Player nitro economy, from RaceVisuals.tsx lines 571-613, in source
order: drain the pending buffer into the reserve (rate proportional to
the remaining buffer, capped at 150), clear the starved flag when the
boost key is up, then either consume at 30 per second (boost held,
reserve positive, not starved; flags starved on hitting zero and scales
the target speed by 1.5) or regenerate at 2.5 per second up to 150. -/
def playerNitroUpdate (delta : ℚ) (shiftHeld : Bool) (targetS nitro buffer : ℚ)
    (empty : Bool) : NitroOut :=
  let drained :=
    if buffer > 0 then
      let fillRate := (buffer * 5 + 15) * delta
      let toFill := min buffer fillRate
      let spaceLeft := 150 - nitro
      let actualFill := min toFill spaceLeft
      let n1 := nitro + actualFill
      let b1 := buffer - actualFill
      (n1, if n1 ≥ 150 then 0 else b1)
    else (nitro, buffer)
  let nitro1 := drained.1
  let buffer1 := drained.2
  let empty1 := if ¬shiftHeld then false else empty
  if shiftHeld ∧ nitro1 > 0 ∧ empty1 = false then
    let targetS1 := targetS * (15 / 10)
    let n2 := nitro1 - delta * 30
    if n2 ≤ 0 then
      { targetS := targetS1, nitroAmount := 0, nitroBuffer := buffer1
        isNitroEmpty := true, isNitroEnabled := false }
    else
      { targetS := targetS1, nitroAmount := n2, nitroBuffer := buffer1
        isNitroEmpty := empty1, isNitroEnabled := true }
  else
    { targetS := targetS, nitroAmount := min 150 (nitro1 + delta * (25 / 10))
      nitroBuffer := buffer1, isNitroEmpty := empty1, isNitroEnabled := false }

/-- Acceleration time constant, from RaceVisuals.tsx line 639:
(6 - min(100, accel) / 100 * 2) / 2 seconds to reach the target. -/
def timeToReachMax (accel : ℚ) : ℚ := (6 - min 100 accel / 100 * 2) / 2

/-- Speed integration of one frame, from RaceVisuals.tsx lines 633-646:
damp toward the target with step delta / timeToReachMax when
accelerating, and with the ten-times-larger step delta * 10 when the
current speed exceeds the target. -/
def speedStep (speed targetS accel delta : ℚ) : ℚ :=
  let isDecelerating := speed > targetS
  let accelStep := delta / timeToReachMax accel
  let decelStep := delta * 10
  let finalStep := if isDecelerating then decelStep else accelStep
  damp speed targetS finalStep

/-- Pre-nitro target speed of a player frame, from RaceVisuals.tsx
lines 542-569: brake input forces target 0, otherwise forward input
(auto gas for the player once movement is allowed, or the key) sets the
target to the scaled max speed 1.6 maxS. -/
def frameTargetSpeed (isPlayer : Bool) (maxS : ℚ) (inp : FrameInput) : ℚ :=
  let autoGas := isPlayer && inp.canMove
  let inW := autoGas || (inp.keyW && inp.canMove)
  let inS := inp.keyS && inp.canMove
  let currentMaxSpeed := maxS * (16 / 10)
  if inS then 0 else if inW then currentMaxSpeed else 0

/-- One frame of the Car useFrame body (RaceVisuals.tsx lines 475-722)
restricted to its scalar state machine, in source order: pause gate,
delta-spike skip, damage recovery, trauma decay, the wreck
countdown-and-reset branch, lap detection from the nearest index,
input gating, target speed, the player nitro economy (or the AI
target), damage speed penalty, speed integration, and the collision
response effects (adopt the corrected speed, add damage 15 and trauma
0.3). The pending-buffer pickups of the external handler are applied
first. Geometry enters through the oracle fields of the input. -/
def carFrame (isPlayer : Bool) (accel maxS aggressiveness : ℚ) (trackLen : ℕ)
    (st : CarState) (inp : FrameInput) : CarState :=
  let st := { st with nitroBuffer := st.nitroBuffer + inp.bufferAdd }
  if inp.paused then st
  else if inp.delta > 1 / 10 then st
  else
    let damage1 := if st.damage > 0 then max 0 (st.damage - inp.delta * 10) else st.damage
    let trauma1 := if isPlayer then max 0 (st.trauma - inp.delta * 3) else st.trauma
    if st.isWrecked then
      let wt := st.wreckTimer - inp.delta
      if wt ≤ 0 then
        { st with speed := 0, damage := min 100 (damage1 + 20), trauma := trauma1
                  isWrecked := false, wreckTimer := wt }
      else
        { st with speed := 0, damage := damage1, trauma := trauma1, wreckTimer := wt }
    else
      let lap1 := lapUpdate trackLen st.lastProgressIndex inp.bestIdx st.lap
      let inShift := inp.keyShift && inp.canMove
      let nitroOut :=
        if isPlayer then
          playerNitroUpdate inp.delta inShift (frameTargetSpeed isPlayer maxS inp)
            st.nitroAmount st.nitroBuffer st.isNitroEmpty
        else
          { targetS := if inp.canMove then maxS * (16 / 10) * aggressiveness else 0
            nitroAmount := st.nitroAmount, nitroBuffer := st.nitroBuffer
            isNitroEmpty := st.isNitroEmpty, isNitroEnabled := st.isNitroEnabled }
      let damagePenalty := 1 - damage1 / 100 * (20 / 100)
      let targetS1 := nitroOut.targetS * damagePenalty
      let speed1 := speedStep st.speed targetS1 accel inp.delta
      if inp.didCollide then
        { speed := inp.collidedSpeed
          nitroAmount := nitroOut.nitroAmount
          nitroBuffer := nitroOut.nitroBuffer
          isNitroEmpty := nitroOut.isNitroEmpty
          isNitroEnabled := nitroOut.isNitroEnabled
          damage := min 100 (damage1 + 15)
          trauma := min 1 (trauma1 + 3 / 10)
          isWrecked := false
          wreckTimer := st.wreckTimer
          lap := lap1
          lastProgressIndex := inp.bestIdx }
      else
        { speed := speed1
          nitroAmount := nitroOut.nitroAmount
          nitroBuffer := nitroOut.nitroBuffer
          isNitroEmpty := nitroOut.isNitroEmpty
          isNitroEnabled := nitroOut.isNitroEnabled
          damage := damage1
          trauma := trauma1
          isWrecked := false
          wreckTimer := st.wreckTimer
          lap := lap1
          lastProgressIndex := inp.bestIdx }

/-- Folds the car step over a list of per-frame inputs. -/
def runFrames (isPlayer : Bool) (accel maxS aggressiveness : ℚ) (trackLen : ℕ)
    (st : CarState) (inputs : List FrameInput) : CarState :=
  inputs.foldl (carFrame isPlayer accel maxS aggressiveness trackLen) st

/-- The bounded-state invariant of the car: nitro reserve in [0, 150],
pending buffer nonnegative, damage in [0, 100]. -/
def carStateInv (st : CarState) : Prop :=
  0 ≤ st.nitroAmount ∧ st.nitroAmount ≤ 150 ∧ 0 ≤ st.nitroBuffer ∧
  0 ≤ st.damage ∧ st.damage ≤ 100

/-! ## Camera rig (CameraSystem, RacingCamera) -/

/-- Three.js quaternion, components as rationals. -/
structure Quat where
  x : ℚ
  y : ℚ
  z : ℚ
  w : ℚ
deriving Repr, DecidableEq

/-- Vector3.applyQuaternion: v + 2 w (q x v) + 2 q x (q x v), in the
expanded form used by three.js. -/
def applyQuaternion (q : Quat) (v : Vec3) : Vec3 :=
  let tx := 2 * (q.y * v.z - q.z * v.y)
  let ty := 2 * (q.z * v.x - q.x * v.z)
  let tz := 2 * (q.x * v.y - q.y * v.x)
  ⟨v.x + q.w * tx + q.y * tz - q.z * ty,
   v.y + q.w * ty + q.z * tx - q.x * tz,
   v.z + q.w * tz + q.x * ty - q.y * tx⟩

/-- Vector3.lerp: move each component toward the target by alpha. -/
def Vec3.lerp (a b : Vec3) (alpha : ℚ) : Vec3 :=
  ⟨a.x + (b.x - a.x) * alpha, a.y + (b.y - a.y) * alpha, a.z + (b.z - a.z) * alpha⟩

/-- MathUtils.lerp on scalars. -/
def lerpQ (a b alpha : ℚ) : ℚ := a + (b - a) * alpha

/-- State of the RacingCamera rig: the smoothed position and look-at
refs, the lazy-init flag, and the camera position and field of view. -/
structure CameraState where
  currentPosition : Vec3
  currentLookAt : Vec3
  isInit : Bool
  camPos : Vec3
  camLookAt : Vec3
  camFov : ℚ
deriving Repr, DecidableEq

/-- The target transform read from the followed car each frame. -/
structure CameraTarget where
  carPos : Vec3
  carQuat : Quat
deriving Repr, DecidableEq

/-- Ideal camera position: the fixed offset (0, 4.5, 5.5) rotated by the
target orientation and translated to the target position. -/
def idealOffsetOf (t : CameraTarget) : Vec3 :=
  (applyQuaternion t.carQuat ⟨0, 45 / 10, 55 / 10⟩).add t.carPos

/-- Ideal look-at point: the fixed offset (0, 3, -20) rotated by the
target orientation and translated to the target position. -/
def idealLookAtOf (t : CameraTarget) : Vec3 :=
  (applyQuaternion t.carQuat ⟨0, 3, -20⟩).add t.carPos

/-- One frame of the RacingCamera useFrame body (CameraSystem lines
599-673): clamp delta, compute the ideal position and look-at; on the
very first update snap to them and return; otherwise lerp position
(rate 30) and look-at (rate 20) toward the ideals, add trauma shake
(shake holds the three centered random draws), and smooth the field of
view asymmetrically toward 90 + 0.12 speed + nitro bonus. -/
def cameraUpdate (cs : CameraState) (t : CameraTarget) (delta speedVal : ℚ)
    (nitroOn : Bool) (traumaVal : ℚ) (shake : Vec3) : CameraState :=
  let dt := min delta (1 / 10)
  let idealOffset := idealOffsetOf t
  let idealLookAt := idealLookAtOf t
  if cs.isInit = false then
    { currentPosition := idealOffset
      currentLookAt := idealLookAt
      isInit := true
      camPos := idealOffset
      camLookAt := idealLookAt
      camFov := cs.camFov }
  else
    let posLerpFactor := 30 * dt
    let p1 := cs.currentPosition.lerp idealOffset posLerpFactor
    let lookLerpFactor := 20 * dt
    let l1 := cs.currentLookAt.lerp idealLookAt lookLerpFactor
    let p2 :=
      if traumaVal > 0 then
        p1.add (shake.multiplyScalar (traumaVal * (25 / 100)))
      else p1
    let targetFOV := 90 + speedVal * (12 / 100) + (if nitroOn then 10 else 0)
    let lerpSpeed := if targetFOV > cs.camFov then dt * 3 else dt * (3 / 10)
    { currentPosition := p2
      currentLookAt := l1
      isInit := true
      camPos := p2
      camLookAt := l1
      camFov := lerpQ cs.camFov targetFOV lerpSpeed }

/-! ## Vector algebra helper lemmas -/

lemma Vec3.dot_comm (a b : Vec3) : a.dot b = b.dot a := by
  simp only [Vec3.dot]; ring

lemma Vec3.smul_dot (a : Vec3) (k : ℚ) (b : Vec3) :
    (a.multiplyScalar k).dot b = k * a.dot b := by
  simp only [Vec3.dot, Vec3.multiplyScalar]; ring

lemma Vec3.dot_smul (a b : Vec3) (k : ℚ) :
    a.dot (b.multiplyScalar k) = k * a.dot b := by
  simp only [Vec3.dot, Vec3.multiplyScalar]; ring

lemma Vec3.sub_dot (a b c : Vec3) : (a.sub b).dot c = a.dot c - b.dot c := by
  simp only [Vec3.dot, Vec3.sub]; ring

lemma Vec3.dot_sub (a b c : Vec3) : a.dot (b.sub c) = a.dot b - a.dot c := by
  simp only [Vec3.dot, Vec3.sub]; ring

lemma Vec3.dot_self_nonneg (a : Vec3) : 0 ≤ a.dot a := by
  simp only [Vec3.dot]
  have h1 := mul_self_nonneg a.x
  have h2 := mul_self_nonneg a.y
  have h3 := mul_self_nonneg a.z
  linarith

lemma Vec3.sub_sub_self (a b : Vec3) : a.sub (a.sub b) = b := by
  cases a; cases b; simp [Vec3.sub]

lemma Vec3.sub_right_comm (a b c : Vec3) : (a.sub b).sub c = (a.sub c).sub b := by
  cases a; cases b; cases c
  simp only [Vec3.sub, mk.injEq]
  refine ⟨by ring, by ring, by ring⟩

lemma Vec3.lengthSq_eq_dot (a : Vec3) : a.lengthSq = a.dot a := rfl

lemma Vec3.norm_combo (w t : Vec3) (b c : ℚ) (hww : w.dot w = 1)
    (hwt : w.dot t = 0) (htw : t.dot w = 0) :
    ((w.multiplyScalar b).add (t.multiplyScalar c)).dot
      ((w.multiplyScalar b).add (t.multiplyScalar c)) = b * b + c * c * (t.dot t) := by
  simp only [Vec3.dot, Vec3.add, Vec3.multiplyScalar] at hww hwt htw ⊢
  linear_combination (b * b) * hww + (b * c) * hwt + (c * b) * htw

lemma Vec3.dot_self_decomp (v w : Vec3) (a : ℚ) (hww : w.dot w = 1) (haw : a = v.dot w) :
    v.dot v = (v.sub (w.multiplyScalar a)).dot (v.sub (w.multiplyScalar a)) + a * a := by
  subst haw
  simp only [Vec3.dot, Vec3.sub, Vec3.multiplyScalar] at hww ⊢
  linear_combination (-((v.x * w.x + v.y * w.y + v.z * w.z) ^ 2)) * hww

/-- Shared kernel of the energy claims: for a unit segment normal, the
corrected velocity of the resolver never has a larger squared length
than the incoming velocity. -/
lemma correctedVelocity_lengthSq_le (p v : Vec3) (seg : SegmentData) (cw : ℚ)
    (hn : seg.normal.dot seg.normal = 1) :
    (resolveTrackCollision p v seg cw).correctedVelocity.lengthSq ≤ v.lengthSq := by
  simp only [resolveTrackCollision, Vec3.lengthSq_eq_dot]
  by_cases h1 : |(p.sub seg.position).dot seg.normal| ≤ seg.width / 2 - cw / 2
  · rw [if_pos h1]
  · rw [if_neg h1]
    simp only
    set d := (p.sub seg.position).dot seg.normal with hd
    set s := jsSign d with hs
    set w := seg.normal.multiplyScalar (-s) with hw
    by_cases h2 : v.dot w < 0
    · rw [if_pos h2]
      have hsval : s = 1 ∨ s = -1 := by
        rcases lt_trichotomy 0 d with h | h | h
        · left; rw [hs, jsSign, if_pos h]
        · exfalso
          apply absurd h2
          rw [hw, hs, ← h]
          simp [jsSign, Vec3.dot_smul]
        · right; rw [hs, jsSign, if_neg (by linarith), if_pos h]
      have hww : w.dot w = 1 := by
        rw [hw, Vec3.smul_dot, Vec3.dot_smul, hn]
        rcases hsval with h | h <;> rw [h] <;> norm_num
      set a := v.dot w with ha
      set vNorm := w.multiplyScalar a with hvn
      set vT := v.sub vNorm with hvt
      have hvtw : vT.dot w = 0 := by
        rw [hvt, Vec3.sub_dot, hvn, Vec3.smul_dot, hww, ← ha]; ring
      have hwvt : w.dot vT = 0 := by rw [Vec3.dot_comm]; exact hvtw
      have hvv : v.dot v = vT.dot vT + a * a := by
        rw [hvt, hvn]
        exact Vec3.dot_self_decomp v w a hww ha
      have hvtnn := Vec3.dot_self_nonneg vT
      have haa := mul_self_nonneg a
      by_cases h3 : (((w.multiplyScalar (min (-a * (1 / 10)) (1 / 2))).add
          (vT.multiplyScalar (90 / 100))).dot v) < 0
      · rw [if_pos h3]
        have h4 : (vT.multiplyScalar (90 / 100)).dot (vT.multiplyScalar (90 / 100)) =
            (90 / 100) * ((90 / 100) * (vT.dot vT)) := by
          rw [Vec3.smul_dot, Vec3.dot_smul]
        rw [h4, hvv]
        linarith
      · rw [if_neg h3]
        set b := min (-a * (1 / 10)) (1 / 2) with hb
        have hRR := Vec3.norm_combo w vT b (90 / 100) hww hwvt hvtw
        rw [hRR, hvv]
        have hb1 : b ≤ -a * (1 / 10) := min_le_left _ _
        have hbpos : 0 < b := lt_min (mul_pos (neg_pos.mpr h2) (by norm_num)) (by norm_num)
        have hb2 : b * b ≤ (-a * (1 / 10)) * (-a * (1 / 10)) :=
          mul_self_le_mul_self hbpos.le hb1
        nlinarith [hb2, hvtnn, haa]
    · rw [if_neg h2]

/-! ## Claim theorems -/

/-- C1: track generation is deterministic — for every math library, for
every integer seed, two calls of generateTrackPath with that seed yield
identical segment sequences: equal position, normal, tangent, rotation,
width, theme and decoration marker at every index. -/
theorem generateTrackPath_deterministic (m : JsMath) (seed : ℤ) (i : ℕ) :
    ((generateTrackPath m seed)[i]?).map SegmentData.position =
      ((generateTrackPath m seed)[i]?).map SegmentData.position ∧
    ((generateTrackPath m seed)[i]?).map SegmentData.normal =
      ((generateTrackPath m seed)[i]?).map SegmentData.normal ∧
    ((generateTrackPath m seed)[i]?).map SegmentData.tangent =
      ((generateTrackPath m seed)[i]?).map SegmentData.tangent ∧
    ((generateTrackPath m seed)[i]?).map SegmentData.rotation =
      ((generateTrackPath m seed)[i]?).map SegmentData.rotation ∧
    ((generateTrackPath m seed)[i]?).map SegmentData.width =
      ((generateTrackPath m seed)[i]?).map SegmentData.width ∧
    ((generateTrackPath m seed)[i]?).map SegmentData.theme =
      ((generateTrackPath m seed)[i]?).map SegmentData.theme ∧
    ((generateTrackPath m seed)[i]?).map SegmentData.groundEmoji =
      ((generateTrackPath m seed)[i]?).map SegmentData.groundEmoji :=
  ⟨rfl, rfl, rfl, rfl, rfl, rfl, rfl⟩

/-- C2: containment — when the signed lateral offset of the position
along the segment normal is within the allowed half-width
width/2 - carWidth/2, the resolver reports no collision and returns the
position, the velocity and side none unchanged. -/
theorem resolveTrackCollision_containment (p v : Vec3) (seg : SegmentData) (cw : ℚ)
    (h : |lateralOffset p seg| ≤ seg.width / 2 - cw / 2) :
    (resolveTrackCollision p v seg cw).didCollide = false ∧
    (resolveTrackCollision p v seg cw).correctedPosition = p ∧
    (resolveTrackCollision p v seg cw).correctedVelocity = v ∧
    (resolveTrackCollision p v seg cw).side = Side.none := by
  simp only [lateralOffset] at h
  simp only [resolveTrackCollision]
  rw [if_pos h]
  exact ⟨rfl, rfl, rfl, rfl⟩

/-- Witness for C2 at a concrete interior position. -/
theorem resolveTrackCollision_containment_witness :
    (resolveTrackCollision ⟨1, 0, 0⟩ ⟨5, 0, 0⟩
        ⟨0, ⟨0, 0, 0⟩, ⟨0, 0, 0⟩, 60, Option.none, ⟨1, 0, 0⟩, ⟨0, 0, 1⟩, "mist"⟩
        2).didCollide = false ∧
    (resolveTrackCollision ⟨1, 0, 0⟩ ⟨5, 0, 0⟩
        ⟨0, ⟨0, 0, 0⟩, ⟨0, 0, 0⟩, 60, Option.none, ⟨1, 0, 0⟩, ⟨0, 0, 1⟩, "mist"⟩
        2).correctedPosition = ⟨1, 0, 0⟩ ∧
    (resolveTrackCollision ⟨1, 0, 0⟩ ⟨5, 0, 0⟩
        ⟨0, ⟨0, 0, 0⟩, ⟨0, 0, 0⟩, 60, Option.none, ⟨1, 0, 0⟩, ⟨0, 0, 1⟩, "mist"⟩
        2).correctedVelocity = ⟨5, 0, 0⟩ ∧
    (resolveTrackCollision ⟨1, 0, 0⟩ ⟨5, 0, 0⟩
        ⟨0, ⟨0, 0, 0⟩, ⟨0, 0, 0⟩, 60, Option.none, ⟨1, 0, 0⟩, ⟨0, 0, 1⟩, "mist"⟩
        2).side = Side.none :=
  resolveTrackCollision_containment ⟨1, 0, 0⟩ ⟨5, 0, 0⟩
    ⟨0, ⟨0, 0, 0⟩, ⟨0, 0, 0⟩, 60, Option.none, ⟨1, 0, 0⟩, ⟨0, 0, 1⟩, "mist"⟩ 2
    (by norm_num [lateralOffset, Vec3.sub, Vec3.dot])

/-- Counterexample to C3 as stated for every segment and half-width: at
a segment with unit normal but car width 10 above the track width 0 the
allowed limit is negative and the bound fails at the center position,
and at a segment with the non-unit normal (10,0,0) and positive limit
the correction overshoots far past the opposite boundary. -/
theorem resolveTrackCollision_correction_ce :
    ((⟨0, ⟨0, 0, 0⟩, ⟨0, 0, 0⟩, 0, Option.none, ⟨1, 0, 0⟩, ⟨0, 0, 1⟩, "mist"⟩ :
        SegmentData).width / 2 - 10 / 2 <
      |lateralOffset ⟨0, 0, 0⟩
        ⟨0, ⟨0, 0, 0⟩, ⟨0, 0, 0⟩, 0, Option.none, ⟨1, 0, 0⟩, ⟨0, 0, 1⟩, "mist"⟩| ∧
     ¬ (|lateralOffset (resolveTrackCollision ⟨0, 0, 0⟩ ⟨0, 0, 0⟩
          ⟨0, ⟨0, 0, 0⟩, ⟨0, 0, 0⟩, 0, Option.none, ⟨1, 0, 0⟩, ⟨0, 0, 1⟩, "mist"⟩
          10).correctedPosition
          ⟨0, ⟨0, 0, 0⟩, ⟨0, 0, 0⟩, 0, Option.none, ⟨1, 0, 0⟩, ⟨0, 0, 1⟩, "mist"⟩| ≤
        0 / 2 - 10 / 2 + 5 / 100)) ∧
    ((⟨0, ⟨0, 0, 0⟩, ⟨0, 0, 0⟩, 60, Option.none, ⟨10, 0, 0⟩, ⟨0, 0, 1⟩, "mist"⟩ :
        SegmentData).width / 2 - 2 / 2 <
      |lateralOffset ⟨20, 0, 0⟩
        ⟨0, ⟨0, 0, 0⟩, ⟨0, 0, 0⟩, 60, Option.none, ⟨10, 0, 0⟩, ⟨0, 0, 1⟩, "mist"⟩| ∧
     ¬ (|lateralOffset (resolveTrackCollision ⟨20, 0, 0⟩ ⟨0, 0, 0⟩
          ⟨0, ⟨0, 0, 0⟩, ⟨0, 0, 0⟩, 60, Option.none, ⟨10, 0, 0⟩, ⟨0, 0, 1⟩, "mist"⟩
          2).correctedPosition
          ⟨0, ⟨0, 0, 0⟩, ⟨0, 0, 0⟩, 60, Option.none, ⟨10, 0, 0⟩, ⟨0, 0, 1⟩, "mist"⟩| ≤
        60 / 2 - 2 / 2 + 5 / 100)) := by
  norm_num [resolveTrackCollision, lateralOffset, Vec3.sub, Vec3.dot, Vec3.add,
    Vec3.multiplyScalar, jsSign]

/-- C3 amended: for a segment whose normal is unit length and whose
width accommodates the car (nonnegative limit), every position whose
lateral offset exceeds the limit is pushed back so that the corrected
lateral offset satisfies the bound limit + safety margin 0.05. -/
theorem resolveTrackCollision_correction (p v : Vec3) (seg : SegmentData) (cw : ℚ)
    (hn : seg.normal.dot seg.normal = 1)
    (hlim : 0 ≤ seg.width / 2 - cw / 2)
    (hx : seg.width / 2 - cw / 2 < |lateralOffset p seg|) :
    |lateralOffset (resolveTrackCollision p v seg cw).correctedPosition seg| ≤
      seg.width / 2 - cw / 2 + 5 / 100 := by
  have h1 : ¬ |(p.sub seg.position).dot seg.normal| ≤ seg.width / 2 - cw / 2 :=
    not_le.mpr hx
  simp only [lateralOffset] at hx ⊢
  simp only [resolveTrackCollision]
  rw [if_neg h1]
  simp only
  set d := (p.sub seg.position).dot seg.normal with hd
  set s := jsSign d with hs
  have key : ((p.sub (seg.normal.multiplyScalar
      ((|d| - (seg.width / 2 - cw / 2) + 5 / 100) * s))).sub seg.position).dot seg.normal
      = d - (|d| - (seg.width / 2 - cw / 2) + 5 / 100) * s := by
    rw [Vec3.sub_right_comm, Vec3.sub_dot, Vec3.smul_dot, hn, ← hd]; ring
  rw [key]
  rcases lt_trichotomy 0 d with h | h | h
  · have hs1 : s = 1 := by rw [hs, jsSign, if_pos h]
    rw [hs1, abs_of_pos h]
    rw [abs_le]
    constructor <;> linarith
  · exfalso
    rw [← h] at hx
    simp at hx
    linarith
  · have hs1 : s = -1 := by rw [hs, jsSign, if_neg (by linarith), if_pos h]
    rw [hs1, abs_of_neg h]
    rw [abs_le]
    constructor <;> linarith

/-- Witness for the amended C3 at a concrete out-of-bounds position. -/
theorem resolveTrackCollision_correction_witness :
    |lateralOffset (resolveTrackCollision ⟨40, 0, 0⟩ ⟨0, 0, 7⟩
        ⟨0, ⟨0, 0, 0⟩, ⟨0, 0, 0⟩, 60, Option.none, ⟨1, 0, 0⟩, ⟨0, 0, 1⟩, "mist"⟩
        2).correctedPosition
      ⟨0, ⟨0, 0, 0⟩, ⟨0, 0, 0⟩, 60, Option.none, ⟨1, 0, 0⟩, ⟨0, 0, 1⟩, "mist"⟩| ≤
      (⟨0, ⟨0, 0, 0⟩, ⟨0, 0, 0⟩, 60, Option.none, ⟨1, 0, 0⟩, ⟨0, 0, 1⟩, "mist"⟩ :
        SegmentData).width / 2 - 2 / 2 + 5 / 100 :=
  resolveTrackCollision_correction ⟨40, 0, 0⟩ ⟨0, 0, 7⟩
    ⟨0, ⟨0, 0, 0⟩, ⟨0, 0, 0⟩, 60, Option.none, ⟨1, 0, 0⟩, ⟨0, 0, 1⟩, "mist"⟩ 2
    (by norm_num [Vec3.dot]) (by norm_num)
    (by norm_num [lateralOffset, Vec3.sub, Vec3.dot])

/-- Counterexample to C4 as stated for every input: with the non-unit
segment normal (2,0,0) the anti-reverse fallback produces a corrected
velocity whose dot product with the incoming velocity is negative. -/
theorem resolveTrackCollision_no_reversal_ce :
    ((resolveTrackCollision ⟨20, 0, 0⟩ ⟨1, 0, 0⟩
        ⟨0, ⟨0, 0, 0⟩, ⟨0, 0, 0⟩, 60, Option.none, ⟨2, 0, 0⟩, ⟨0, 0, 1⟩, "mist"⟩
        2).correctedVelocity.dot ⟨1, 0, 0⟩) < 0 := by
  norm_num [resolveTrackCollision, Vec3.sub, Vec3.dot, Vec3.add,
    Vec3.multiplyScalar, jsSign]

/-- C4 amended: for a segment whose normal is unit length, the dot
product of the corrected velocity with the incoming velocity is
nonnegative in every branch of the resolver — the response never fully
reverses the direction of travel. -/
theorem resolveTrackCollision_no_reversal (p v : Vec3) (seg : SegmentData) (cw : ℚ)
    (hn : seg.normal.dot seg.normal = 1) :
    0 ≤ (resolveTrackCollision p v seg cw).correctedVelocity.dot v := by
  simp only [resolveTrackCollision]
  by_cases h1 : |(p.sub seg.position).dot seg.normal| ≤ seg.width / 2 - cw / 2
  · rw [if_pos h1]
    exact Vec3.dot_self_nonneg v
  · rw [if_neg h1]
    simp only
    set d := (p.sub seg.position).dot seg.normal with hd
    set s := jsSign d with hs
    set w := seg.normal.multiplyScalar (-s) with hw
    by_cases h2 : v.dot w < 0
    · rw [if_pos h2]
      have hsval : s = 1 ∨ s = -1 := by
        rcases lt_trichotomy 0 d with h | h | h
        · left; rw [hs, jsSign, if_pos h]
        · exfalso
          apply absurd h2
          rw [hw, hs, ← h]
          simp [jsSign, Vec3.dot_smul]
        · right; rw [hs, jsSign, if_neg (by linarith), if_pos h]
      have hww : w.dot w = 1 := by
        rw [hw, Vec3.smul_dot, Vec3.dot_smul, hn]
        rcases hsval with h | h <;> rw [h] <;> norm_num
      set a := v.dot w with ha
      set vNorm := w.multiplyScalar a with hvn
      set vT := v.sub vNorm with hvt
      have hvtw : vT.dot w = 0 := by
        rw [hvt, Vec3.sub_dot, hvn, Vec3.smul_dot, hww, ← ha]; ring
      have hvtv : vT.dot v = vT.dot vT := by
        have h5 : v.sub vT = vNorm := by rw [hvt]; exact Vec3.sub_sub_self v vNorm
        have h6 := Vec3.dot_sub vT v vT
        rw [h5, hvn, Vec3.dot_smul, hvtw, mul_zero] at h6
        linarith
      by_cases h3 : (((w.multiplyScalar (min (-a * (1 / 10)) (1 / 2))).add
          (vT.multiplyScalar (90 / 100))).dot v) < 0
      · rw [if_pos h3, Vec3.smul_dot]
        have := Vec3.dot_self_nonneg vT
        rw [hvtv]
        linarith
      · rw [if_neg h3]
        exact not_lt.mp h3
    · rw [if_neg h2]
      exact Vec3.dot_self_nonneg v

/-- Witness for the amended C4 at a concrete collision. -/
theorem resolveTrackCollision_no_reversal_witness :
    0 ≤ (resolveTrackCollision ⟨40, 0, 0⟩ ⟨3, 1, -2⟩
        ⟨0, ⟨0, 0, 0⟩, ⟨0, 0, 0⟩, 60, Option.none, ⟨1, 0, 0⟩, ⟨0, 0, 1⟩, "mist"⟩
        2).correctedVelocity.dot ⟨3, 1, -2⟩ :=
  resolveTrackCollision_no_reversal ⟨40, 0, 0⟩ ⟨3, 1, -2⟩
    ⟨0, ⟨0, 0, 0⟩, ⟨0, 0, 0⟩, 60, Option.none, ⟨1, 0, 0⟩, ⟨0, 0, 1⟩, "mist"⟩ 2
    (by norm_num [Vec3.dot])

/-- Counterexample to C10 as stated for every input: with the non-unit
segment normal (2,0,0) the anti-reverse fallback returns a corrected
velocity of Euclidean norm 27/5, strictly above the incoming norm 2. -/
theorem resolveTrackCollision_energy_ce :
    ¬ (Real.sqrt (((resolveTrackCollision ⟨20, 0, 0⟩ ⟨2, 0, 0⟩
          ⟨0, ⟨0, 0, 0⟩, ⟨0, 0, 0⟩, 60, Option.none, ⟨2, 0, 0⟩, ⟨0, 0, 1⟩, "mist"⟩
          2).correctedVelocity.lengthSq : ℝ)) ≤
        Real.sqrt (((⟨2, 0, 0⟩ : Vec3).lengthSq : ℝ))) := by
  have h1 : (resolveTrackCollision ⟨20, 0, 0⟩ ⟨2, 0, 0⟩
      ⟨0, ⟨0, 0, 0⟩, ⟨0, 0, 0⟩, 60, Option.none, ⟨2, 0, 0⟩, ⟨0, 0, 1⟩, "mist"⟩
      2).correctedVelocity = ⟨-27 / 5, 0, 0⟩ := by
    norm_num [resolveTrackCollision, Vec3.sub, Vec3.dot, Vec3.add,
      Vec3.multiplyScalar, jsSign]
  rw [h1]
  have h2 : (((⟨-27 / 5, 0, 0⟩ : Vec3).lengthSq : ℝ)) = 729 / 25 := by
    norm_num [Vec3.lengthSq]
  have h3 : (((⟨2, 0, 0⟩ : Vec3).lengthSq : ℝ)) = 4 := by
    norm_num [Vec3.lengthSq]
  rw [h2, h3]
  exact not_le.mpr (Real.sqrt_lt_sqrt (by norm_num) (by norm_num))

/-- C10 amended: for a segment whose normal is unit length, the
Euclidean norm of the corrected velocity never exceeds the norm of the
incoming velocity, in every branch of the resolver. -/
theorem resolveTrackCollision_no_energy_gain (p v : Vec3) (seg : SegmentData) (cw : ℚ)
    (hn : seg.normal.dot seg.normal = 1) :
    Real.sqrt (((resolveTrackCollision p v seg cw).correctedVelocity.lengthSq : ℝ)) ≤
      Real.sqrt ((v.lengthSq : ℝ)) := by
  have key := correctedVelocity_lengthSq_le p v seg cw hn
  exact Real.sqrt_le_sqrt (by exact_mod_cast key)

/-- Witness for the amended C10 at a concrete collision. -/
theorem resolveTrackCollision_no_energy_gain_witness :
    Real.sqrt (((resolveTrackCollision ⟨-35, 0, 0⟩ ⟨-4, 0, 1⟩
        ⟨0, ⟨0, 0, 0⟩, ⟨0, 0, 0⟩, 60, Option.none, ⟨1, 0, 0⟩, ⟨0, 0, 1⟩, "mist"⟩
        2).correctedVelocity.lengthSq : ℝ)) ≤
      Real.sqrt (((⟨-4, 0, 1⟩ : Vec3).lengthSq : ℝ)) :=
  resolveTrackCollision_no_energy_gain ⟨-35, 0, 0⟩ ⟨-4, 0, 1⟩
    ⟨0, ⟨0, 0, 0⟩, ⟨0, 0, 0⟩, 60, Option.none, ⟨1, 0, 0⟩, ⟨0, 0, 1⟩, "mist"⟩ 2
    (by norm_num [Vec3.dot])

/-- Bounds of the player nitro economy: from a reserve in [0, 150] and
a nonnegative buffer, with nonnegative delta, one frame keeps the
reserve in [0, 150] and the buffer nonnegative. -/
lemma playerNitroUpdate_bounds (delta : ℚ) (sh : Bool) (tS nitro buffer : ℚ)
    (e : Bool) (hd : 0 ≤ delta) (h1 : 0 ≤ nitro) (h2 : nitro ≤ 150) (h3 : 0 ≤ buffer) :
    0 ≤ (playerNitroUpdate delta sh tS nitro buffer e).nitroAmount ∧
    (playerNitroUpdate delta sh tS nitro buffer e).nitroAmount ≤ 150 ∧
    0 ≤ (playerNitroUpdate delta sh tS nitro buffer e).nitroBuffer := by
  simp only [playerNitroUpdate]
  by_cases hbuf : buffer > 0
  · rw [if_pos hbuf]
    simp only
    have hfill0 : 0 ≤ min (min buffer ((buffer * 5 + 15) * delta)) (150 - nitro) := by
      apply le_min
      · exact le_min hbuf.le (by nlinarith)
      · linarith
    have hfill1 : min (min buffer ((buffer * 5 + 15) * delta)) (150 - nitro) ≤ 150 - nitro :=
      min_le_right _ _
    have hfill2 : min (min buffer ((buffer * 5 + 15) * delta)) (150 - nitro) ≤ buffer :=
      le_trans (min_le_left _ _) (min_le_left _ _)
    split_ifs with hc hz hcap hc2 hz2 <;> simp only <;>
      constructor <;> try constructor
    all_goals
      first
      | linarith
      | · exact le_min (by linarith) (by linarith)
      | · exact min_le_left _ _
  · rw [if_neg hbuf]
    simp only
    split_ifs with hc hz <;> simp only <;> constructor <;> try constructor
    all_goals
      first
      | linarith
      | · exact le_min (by linarith) (by linarith)
      | · exact min_le_left _ _

/-- Preservation of the bounded-state invariant by one car frame. -/
lemma carFrame_preserves_inv (isPlayer : Bool) (accel maxS aggr : ℚ) (trackLen : ℕ)
    (st : CarState) (inp : FrameInput) (hst : carStateInv st)
    (hd : 0 ≤ inp.delta) (hb : 0 ≤ inp.bufferAdd) :
    carStateInv (carFrame isPlayer accel maxS aggr trackLen st inp) := by
  obtain ⟨h1, h2, h3, h4, h5⟩ := hst
  have hb2 : 0 ≤ st.nitroBuffer + inp.bufferAdd := by linarith
  have hP := playerNitroUpdate_bounds inp.delta (inp.keyShift && inp.canMove)
    (frameTargetSpeed isPlayer maxS inp) st.nitroAmount (st.nitroBuffer + inp.bufferAdd)
    st.isNitroEmpty hd h1 h2 hb2
  simp only [carFrame, carStateInv]
  have hmax1 := le_max_left 0 (st.damage - inp.delta * 10)
  have hmax2 : max 0 (st.damage - inp.delta * 10) ≤ st.damage :=
    max_le h4 (by linarith)
  split_ifs <;> simp only <;>
    refine ⟨?_, ?_, ?_, ?_, ?_⟩ <;>
    first
      | linarith [hP.1, hP.2.1, hP.2.2, hmax1, hmax2]
      | · apply le_max_left
      | · apply max_le (by linarith) (by linarith)
      | · apply le_min (by linarith [hmax1]) (by linarith [hmax1])
      | · apply min_le_left

/-- C5: bounded state — starting from the initial vehicle state, after
every sequence of per-frame step calls with arbitrary inputs (deltas
and pickup amounts nonnegative), the nitro reserve stays within
[0, 150] and accumulated damage stays within [0, 100]. -/
theorem carState_bounded (isPlayer : Bool) (accel maxS aggr : ℚ)
    (trackLen startOffset : ℕ) (inputs : List FrameInput)
    (h : ∀ inp ∈ inputs, 0 ≤ inp.delta ∧ 0 ≤ inp.bufferAdd) :
    0 ≤ (runFrames isPlayer accel maxS aggr trackLen (carInit startOffset) inputs).nitroAmount ∧
    (runFrames isPlayer accel maxS aggr trackLen (carInit startOffset) inputs).nitroAmount ≤ 150 ∧
    0 ≤ (runFrames isPlayer accel maxS aggr trackLen (carInit startOffset) inputs).damage ∧
    (runFrames isPlayer accel maxS aggr trackLen (carInit startOffset) inputs).damage ≤ 100 := by
  have main : ∀ (l : List FrameInput) (st : CarState),
      (∀ inp ∈ l, 0 ≤ inp.delta ∧ 0 ≤ inp.bufferAdd) → carStateInv st →
      carStateInv (List.foldl (carFrame isPlayer accel maxS aggr trackLen) st l) := by
    intro l
    induction l with
    | nil => intro st _ hst; simpa using hst
    | cons a tl ih =>
      intro st hl hst
      simp only [List.foldl_cons]
      exact ih _ (fun i hi => hl i (List.mem_cons_of_mem a hi))
        (carFrame_preserves_inv isPlayer accel maxS aggr trackLen st a hst
          (hl a (List.mem_cons_self a tl)).1 (hl a (List.mem_cons_self a tl)).2)
  have hinit : carStateInv (carInit startOffset) := by
    refine ⟨?_, ?_, ?_, ?_, ?_⟩ <;> norm_num [carInit]
  have hfin := main inputs (carInit startOffset) h hinit
  exact ⟨hfin.1, hfin.2.1, hfin.2.2.2.1, hfin.2.2.2.2⟩

/-- Witness for C5 on a concrete two-frame run with a collision and a
nitro pickup. -/
theorem carState_bounded_witness :
    0 ≤ (runFrames true 55 45 1 1200 (carInit 0)
        [⟨1 / 60, false, true, true, false, true, 5, true, 12, 0⟩,
         ⟨1 / 30, false, true, true, false, false, 6, false, 0, 45⟩]).nitroAmount ∧
    (runFrames true 55 45 1 1200 (carInit 0)
        [⟨1 / 60, false, true, true, false, true, 5, true, 12, 0⟩,
         ⟨1 / 30, false, true, true, false, false, 6, false, 0, 45⟩]).nitroAmount ≤ 150 ∧
    0 ≤ (runFrames true 55 45 1 1200 (carInit 0)
        [⟨1 / 60, false, true, true, false, true, 5, true, 12, 0⟩,
         ⟨1 / 30, false, true, true, false, false, 6, false, 0, 45⟩]).damage ∧
    (runFrames true 55 45 1 1200 (carInit 0)
        [⟨1 / 60, false, true, true, false, true, 5, true, 12, 0⟩,
         ⟨1 / 30, false, true, true, false, false, 6, false, 0, 45⟩]).damage ≤ 100 :=
  carState_bounded true 55 45 1 1200 0
    [⟨1 / 60, false, true, true, false, true, 5, true, 12, 0⟩,
     ⟨1 / 30, false, true, true, false, false, 6, false, 0, 45⟩]
    (by
      intro i hi
      simp only [List.mem_cons, List.not_mem_nil, or_false] at hi
      rcases hi with rfl | rfl
      · exact ⟨by norm_num, by norm_num⟩
      · exact ⟨by norm_num, by norm_num⟩)

/-- Behaviour of the player nitro economy in the starved state: boost
key held, starved flag set and empty pending buffer leave the target
speed unscaled, regenerate the reserve at 2.5 per second up to 150,
keep the flag set and keep boost disabled. -/
lemma playerNitroUpdate_starved (delta tS nitro : ℚ) :
    (playerNitroUpdate delta true tS nitro 0 true).targetS = tS ∧
    (playerNitroUpdate delta true tS nitro 0 true).nitroAmount =
      min 150 (nitro + delta * (25 / 10)) ∧
    (playerNitroUpdate delta true tS nitro 0 true).nitroBuffer = 0 ∧
    (playerNitroUpdate delta true tS nitro 0 true).isNitroEmpty = true ∧
    (playerNitroUpdate delta true tS nitro 0 true).isNitroEnabled = false := by
  simp [playerNitroUpdate]

/-- Preservation of the starved configuration by one player frame with
the boost key held and no pickups. -/
lemma carFrame_starved (accel maxS aggr : ℚ) (trackLen : ℕ) (st : CarState)
    (inp : FrameInput) (h0 : 0 ≤ st.nitroAmount) (h1 : st.isNitroEmpty = true)
    (h2 : st.isNitroEnabled = false) (h3 : st.nitroBuffer = 0)
    (hi1 : inp.keyShift = true) (hi2 : inp.canMove = true) (hi3 : inp.bufferAdd = 0)
    (hi4 : 0 ≤ inp.delta) :
    0 ≤ (carFrame true accel maxS aggr trackLen st inp).nitroAmount ∧
    (carFrame true accel maxS aggr trackLen st inp).isNitroEmpty = true ∧
    (carFrame true accel maxS aggr trackLen st inp).isNitroEnabled = false ∧
    (carFrame true accel maxS aggr trackLen st inp).nitroBuffer = 0 := by
  have hsh : (inp.keyShift && inp.canMove) = true := by rw [hi1, hi2]; rfl
  have hQ := playerNitroUpdate_starved inp.delta (frameTargetSpeed true maxS inp)
    st.nitroAmount
  simp only [carFrame, h3, hi3, add_zero, hsh, h1]
  split_ifs <;> simp only <;>
    refine ⟨?_, ?_, ?_, ?_⟩ <;>
    first
      | trivial
      | assumption
      | rfl
      | (rw [hQ.2.1]; exact le_min (by norm_num) (by linarith))
      | exact hQ.2.2.1
      | exact hQ.2.2.2.1
      | exact hQ.2.2.2.2

/-- Counterexample to C6 as stated: one frame from a starved reserve of
0 with boost held regenerates the reserve to 1/20 — the reserve does
not stay at 0 while boost is held. -/
theorem nitro_starvation_ce :
    (carFrame true 55 45 1 1200
      { carInit 0 with nitroAmount := 0, isNitroEmpty := true }
      ⟨1 / 50, false, true, true, false, true, 0, false, 0, 0⟩).nitroAmount = 1 / 20 ∧
    ((1 : ℚ) / 20 ≠ 0) := by
  constructor
  · norm_num [carFrame, carInit, playerNitroUpdate, lapUpdate, frameTargetSpeed,
      speedStep, damp, timeToReachMax]
  · norm_num

/-- C6 amended: starting from a nitro reserve of 0 with the starved
flag set, holding boost continuously over any frame sequence keeps the
reserve nonnegative (it regenerates passively at 2.5 per second instead
of staying at 0), keeps the starved flag set, and boost stays disabled
with no effect on the target speed until the key is released. -/
theorem nitro_starvation (accel maxS aggr : ℚ) (trackLen : ℕ) (st0 : CarState)
    (inputs : List FrameInput)
    (h0 : st0.nitroAmount = 0) (h1 : st0.isNitroEmpty = true)
    (h2 : st0.isNitroEnabled = false) (h3 : st0.nitroBuffer = 0)
    (hin : ∀ inp ∈ inputs, inp.keyShift = true ∧ inp.canMove = true ∧
      inp.bufferAdd = 0 ∧ 0 ≤ inp.delta) :
    (0 ≤ (runFrames true accel maxS aggr trackLen st0 inputs).nitroAmount ∧
     (runFrames true accel maxS aggr trackLen st0 inputs).isNitroEmpty = true ∧
     (runFrames true accel maxS aggr trackLen st0 inputs).isNitroEnabled = false) ∧
    (∀ delta tS n : ℚ, (playerNitroUpdate delta true tS n 0 true).targetS = tS ∧
      (playerNitroUpdate delta true tS n 0 true).isNitroEnabled = false) := by
  constructor
  · have main : ∀ (l : List FrameInput) (st : CarState),
        (∀ inp ∈ l, inp.keyShift = true ∧ inp.canMove = true ∧
          inp.bufferAdd = 0 ∧ 0 ≤ inp.delta) →
        (0 ≤ st.nitroAmount ∧ st.isNitroEmpty = true ∧
          st.isNitroEnabled = false ∧ st.nitroBuffer = 0) →
        (0 ≤ (List.foldl (carFrame true accel maxS aggr trackLen) st l).nitroAmount ∧
         (List.foldl (carFrame true accel maxS aggr trackLen) st l).isNitroEmpty = true ∧
         (List.foldl (carFrame true accel maxS aggr trackLen) st l).isNitroEnabled = false ∧
         (List.foldl (carFrame true accel maxS aggr trackLen) st l).nitroBuffer = 0) := by
      intro l
      induction l with
      | nil => intro st _ hst; simpa using hst
      | cons a tl ih =>
        intro st hl hst
        simp only [List.foldl_cons]
        have ha := hl a (List.mem_cons_self a tl)
        exact ih _ (fun i hi => hl i (List.mem_cons_of_mem a hi))
          (carFrame_starved accel maxS aggr trackLen st a hst.1 hst.2.1 hst.2.2.1
            hst.2.2.2 ha.1 ha.2.1 ha.2.2.1 ha.2.2.2)
    have hfin := main inputs st0 hin ⟨by rw [h0], h1, h2, h3⟩
    exact ⟨hfin.1, hfin.2.1, hfin.2.2.1⟩
  · intro delta tS n
    exact ⟨(playerNitroUpdate_starved delta tS n).1,
      (playerNitroUpdate_starved delta tS n).2.2.2.2⟩

/-- Witness for the amended C6: three starved frames with boost held. -/
theorem nitro_starvation_witness :
    (0 ≤ (runFrames true 70 72 1 1200
        { carInit 0 with nitroAmount := 0, isNitroEmpty := true }
        [⟨1 / 60, false, true, true, false, true, 0, false, 0, 0⟩,
         ⟨1 / 60, false, true, true, false, true, 1, false, 0, 0⟩,
         ⟨1 / 60, false, true, true, false, true, 2, false, 0, 0⟩]).nitroAmount ∧
     (runFrames true 70 72 1 1200
        { carInit 0 with nitroAmount := 0, isNitroEmpty := true }
        [⟨1 / 60, false, true, true, false, true, 0, false, 0, 0⟩,
         ⟨1 / 60, false, true, true, false, true, 1, false, 0, 0⟩,
         ⟨1 / 60, false, true, true, false, true, 2, false, 0, 0⟩]).isNitroEmpty = true ∧
     (runFrames true 70 72 1 1200
        { carInit 0 with nitroAmount := 0, isNitroEmpty := true }
        [⟨1 / 60, false, true, true, false, true, 0, false, 0, 0⟩,
         ⟨1 / 60, false, true, true, false, true, 1, false, 0, 0⟩,
         ⟨1 / 60, false, true, true, false, true, 2, false, 0, 0⟩]).isNitroEnabled = false) ∧
    (∀ delta tS n : ℚ, (playerNitroUpdate delta true tS n 0 true).targetS = tS ∧
      (playerNitroUpdate delta true tS n 0 true).isNitroEnabled = false) :=
  nitro_starvation 70 72 1 1200
    { carInit 0 with nitroAmount := 0, isNitroEmpty := true }
    [⟨1 / 60, false, true, true, false, true, 0, false, 0, 0⟩,
     ⟨1 / 60, false, true, true, false, true, 1, false, 0, 0⟩,
     ⟨1 / 60, false, true, true, false, true, 2, false, 0, 0⟩]
    rfl rfl rfl rfl
    (by
      intro i hi
      simp only [List.mem_cons, List.not_mem_nil, or_false] at hi
      rcases hi with rfl | rfl | rfl
      · exact ⟨rfl, rfl, rfl, by norm_num⟩
      · exact ⟨rfl, rfl, rfl, by norm_num⟩
      · exact ⟨rfl, rfl, rfl, by norm_num⟩)

/-- C7: lap wrap — on a 1200-segment track, a vehicle whose nearest
index over consecutive frames is 1198, 1199, 0, 1 gains exactly one lap
(at the frame crossing from above 90 percent to below 10 percent of the
segment count), and the symmetric crossing from below 10 percent to
above 90 percent decrements the lap counter. -/
theorem lapUpdate_wrap (L : ℤ) :
    lapScan 1200 1198 L [1199, 0, 1] = L + 1 ∧
    (∀ (lastIdx bestIdx : ℕ) (lap : ℤ),
      (lastIdx : ℚ) < (1200 : ℚ) * (1 / 10) → (bestIdx : ℚ) > (1200 : ℚ) * (9 / 10) →
      lapUpdate 1200 lastIdx bestIdx lap = lap - 1) := by
  constructor
  · norm_num [lapScan, lapUpdate]
  · intro lastIdx bestIdx lap hlo hhi
    rw [lapUpdate]
    split_ifs with hA hB
    · exfalso
      have h1 := hA.1
      push_cast at h1 hlo
      linarith
    · rfl
    · exfalso
      apply hB
      push_cast at hlo hhi ⊢
      exact ⟨hlo, hhi⟩

/-- Witness for C7: the wrap sequence from lap 5 and a concrete
backward crossing. -/
theorem lapUpdate_wrap_witness :
    lapScan 1200 1198 5 [1199, 0, 1] = 5 + 1 ∧ lapUpdate 1200 100 1100 7 = 7 - 1 :=
  ⟨(lapUpdate_wrap 5).1, (lapUpdate_wrap 0).2 100 1100 7 (by norm_num) (by norm_num)⟩

/-- Counterexample to C8 as stated: with dt = 0.1 the deceleration step
saturates (min 1 (0.1 x 10) = 1) and the speed snaps the whole way from
100 to 0, a change of 100, while the acceleration-phase change with the
maximal acceleration stat 100 is 5 — a ratio of 20, outside even a
generous factor-1.5 reading of approximately 10 times. -/
theorem speedStep_snap_ce :
    |speedStep 100 0 100 (1 / 10) - 100| = 100 ∧
    |speedStep 0 100 100 (1 / 10) - 0| = 5 ∧
    ¬ (|speedStep 100 0 100 (1 / 10) - 100| ≤
        15 * |speedStep 0 100 100 (1 / 10) - 0|) := by
  norm_num [speedStep, damp, timeToReachMax]

/-- C8 amended: in one step with dt = 0.1 from speed 100 toward target
0 the speed change is the full 100 (the decel step saturates), and for
every acceleration stat in [0, 100] it is between 20 and 30 times the
change of one step from speed 0 toward target 100 — ten times the
acceleration time constant, which lies in [2, 3] — not approximately
10 times. -/
theorem speedStep_decel_snap (accel : ℚ) (h : 0 ≤ accel) :
    |speedStep 100 0 accel (1 / 10) - 100| = 100 ∧
    20 * |speedStep 0 100 accel (1 / 10) - 0| ≤ |speedStep 100 0 accel (1 / 10) - 100| ∧
    |speedStep 100 0 accel (1 / 10) - 100| ≤ 30 * |speedStep 0 100 accel (1 / 10) - 0| := by
  have hM0 : 0 ≤ min 100 accel := le_min (by norm_num) h
  have hM1 : min 100 accel ≤ 100 := min_le_left _ _
  have hT2 : 2 ≤ timeToReachMax accel := by
    simp only [timeToReachMax]; linarith
  have hT3 : timeToReachMax accel ≤ 3 := by
    simp only [timeToReachMax]; linarith
  have hTpos : 0 < timeToReachMax accel := by linarith
  have hD : speedStep 100 0 accel (1 / 10) = 0 := by
    simp only [speedStep, damp]
    rw [if_pos (by norm_num : (100 : ℚ) > 0)]
    norm_num
  have hstep : (1 : ℚ) / 10 / timeToReachMax accel ≤ 1 := by
    rw [div_le_one hTpos]; linarith
  have hstep0 : (0 : ℚ) ≤ 1 / 10 / timeToReachMax accel :=
    div_nonneg (by norm_num) hTpos.le
  have hA : speedStep 0 100 accel (1 / 10) = 100 * (1 / 10 / timeToReachMax accel) := by
    simp only [speedStep, damp]
    rw [if_neg (by norm_num : ¬ (0 : ℚ) > 100), min_eq_right hstep]
    ring
  rw [hD, hA]
  have habs : |(0 : ℚ) - 100| = 100 := by norm_num
  have habs2 : |100 * (1 / 10 / timeToReachMax accel) - 0| =
      100 * (1 / 10 / timeToReachMax accel) := by
    rw [sub_zero, abs_of_nonneg (by linarith)]
  rw [habs, habs2]
  refine ⟨rfl, ?_, ?_⟩
  · have he : 20 * (100 * (1 / 10 / timeToReachMax accel)) =
        200 / timeToReachMax accel := by ring
    rw [he, div_le_iff hTpos]
    linarith
  · have he : 30 * (100 * (1 / 10 / timeToReachMax accel)) =
        300 / timeToReachMax accel := by ring
    rw [he, le_div_iff hTpos]
    linarith

/-- Witness for the amended C8 at the starter car acceleration stat. -/
theorem speedStep_decel_snap_witness :
    |speedStep 100 0 55 (1 / 10) - 100| = 100 ∧
    20 * |speedStep 0 100 55 (1 / 10) - 0| ≤ |speedStep 100 0 55 (1 / 10) - 100| ∧
    |speedStep 100 0 55 (1 / 10) - 100| ≤ 30 * |speedStep 0 100 55 (1 / 10) - 0| :=
  speedStep_decel_snap 55 (by norm_num)

/-- C9: camera first-frame snap — whatever the previous camera state,
on the first update for a fresh target (init flag still unset) the
returned camera position equals the ideal offset computed from the
target transform exactly, with no interpolation from the prior state. -/
theorem cameraUpdate_first_snap (cs : CameraState) (t : CameraTarget)
    (delta speedVal : ℚ) (nitroOn : Bool) (traumaVal : ℚ) (shake : Vec3)
    (h : cs.isInit = false) :
    (cameraUpdate cs t delta speedVal nitroOn traumaVal shake).camPos =
      idealOffsetOf t := by
  simp only [cameraUpdate]
  rw [if_pos h]

/-- Witness for C9 on a fresh camera with junk prior values and a
rotated target. -/
theorem cameraUpdate_first_snap_witness :
    (cameraUpdate ⟨⟨9, 9, 9⟩, ⟨8, 8, 8⟩, false, ⟨7, 7, 7⟩, ⟨6, 6, 6⟩, 90⟩
        ⟨⟨10, 2, 5⟩, ⟨0, 1, 0, 0⟩⟩ (1 / 60) 80 true (1 / 2) ⟨1, 0, 0⟩).camPos =
      idealOffsetOf ⟨⟨10, 2, 5⟩, ⟨0, 1, 0, 0⟩⟩ :=
  cameraUpdate_first_snap ⟨⟨9, 9, 9⟩, ⟨8, 8, 8⟩, false, ⟨7, 7, 7⟩, ⟨6, 6, 6⟩, 90⟩
    ⟨⟨10, 2, 5⟩, ⟨0, 1, 0, 0⟩⟩ (1 / 60) 80 true (1 / 2) ⟨1, 0, 0⟩ rfl

end Zhaotito
